import Mathlib

/-!
Formal model of the sentiment-reality task scheduling and pipeline engine:
the task store with exclusive claiming (jobs/worker.py), the worker loop,
the pipeline orchestrator (jobs/pipeline.py), and the windowed metrics
engine, together with theorems about their behavior.

Machine integers are modelled as Nat/Int, SQL timestamps as a Nat clock
passed explicitly, jsonb payloads as association lists, and Python floats
as real numbers.
-/

/-! ## Task store data model (table `tasks`) -/

/-- Status column of a task row: PENDING, RUNNING, DONE, ERROR. -/
inductive TaskStatus
  | pending
  | running
  | done
  | error
deriving DecidableEq, Repr

/-- One row of the `tasks` table. -/
structure TaskRow where
  id : Nat
  task_type : String
  ticker : Option String
  priority : Int
  status : TaskStatus
  payload : List (String × String)
  attempts : Nat
  error : Option String
  created_at : Nat
  updated_at : Nat
deriving DecidableEq, Repr

/-- The view of a claimed row returned by claim_next_task
(`RETURNING t.id, t.task_type, t.ticker, t.payload, t.attempts`,
where attempts is the post-increment value). -/
structure ClaimedTask where
  id : Nat
  task_type : String
  ticker : Option String
  payload : List (String × String)
  attempts : Nat
deriving DecidableEq, Repr

/-- SQL `ORDER BY priority DESC, created_at ASC`: row `u` sorts strictly
before row `b`. -/
def better (u b : TaskRow) : Bool :=
  u.priority > b.priority || (u.priority == b.priority && u.created_at < b.created_at)

/-- The first row of `l` in `ORDER BY priority DESC, created_at ASC` order
(`LIMIT 1`); among fully tied rows the earliest-listed row is kept. -/
def pickBest (l : List TaskRow) : Option TaskRow :=
  match l with
  | [] => none
  | t :: rest => some (rest.foldl (fun b u => if better u b then u else b) t)

/-- `INSERT INTO tasks (task_type, ticker, priority, status, payload)
VALUES (..., 'PENDING', ...)`: a fresh row with attempts 0. -/
def enqueue (now id : Nat) (task_type : String) (ticker : Option String)
    (priority : Int) (payload : List (String × String)) (ts : List TaskRow) :
    List TaskRow :=
  ts ++ [{ id := id, task_type := task_type, ticker := ticker, priority := priority,
           status := TaskStatus.pending, payload := payload, attempts := 0,
           error := none, created_at := now, updated_at := now }]

/-- claim_next_task (jobs/worker.py): the atomic CTE
`SELECT id FROM tasks WHERE status = 'PENDING'
 ORDER BY priority DESC, created_at ASC FOR UPDATE SKIP LOCKED LIMIT 1`
followed by
`UPDATE tasks SET status = 'RUNNING', attempts = attempts + 1, updated_at = now()`
on the selected id, returning the claimed view and the updated table. -/
def claim_next_task (now : Nat) (ts : List TaskRow) :
    Option ClaimedTask × List TaskRow :=
  match pickBest (ts.filter fun t => t.status = TaskStatus.pending) with
  | none => (none, ts)
  | some t =>
      (some { id := t.id, task_type := t.task_type, ticker := t.ticker,
              payload := t.payload, attempts := t.attempts + 1 },
       ts.map fun u =>
         if u.id = t.id then
           { u with status := TaskStatus.running, attempts := u.attempts + 1,
                    updated_at := now }
         else u)

/-- Number of PENDING rows in the table. -/
def countPending (ts : List TaskRow) : Nat :=
  (ts.filter fun t => t.status = TaskStatus.pending).length

/-! ## Ordering lemmas for the claim query -/

theorem better_irrefl (a : TaskRow) : better a a = false := by
  simp [better]

theorem better_trans {a b c : TaskRow} (h1 : better a b = true)
    (h2 : better b c = true) : better a c = true := by
  simp only [better, Bool.or_eq_true, Bool.and_eq_true, decide_eq_true_eq,
    beq_iff_eq] at h1 h2 ⊢
  rcases h1 with h1 | ⟨h1, h1c⟩ <;> rcases h2 with h2 | ⟨h2, h2c⟩
  · exact Or.inl (lt_trans h2 h1)
  · exact Or.inl (h2 ▸ h1)
  · exact Or.inl (h1 ▸ h2)
  · exact Or.inr ⟨h1.trans h2, lt_trans h1c h2c⟩

theorem better_neg_trans {a b c : TaskRow} (h1 : better a b = false)
    (h2 : better b c = false) : better a c = false := by
  simp only [better, Bool.or_eq_false_iff, Bool.and_eq_false_iff,
    decide_eq_false_iff_not, not_lt, beq_eq_false_iff_ne, ne_eq] at h1 h2 ⊢
  obtain ⟨h1p, h1t⟩ := h1
  obtain ⟨h2p, h2t⟩ := h2
  refine ⟨le_trans h1p h2p, ?_⟩
  by_cases hac : a.priority = c.priority
  · right
    have hab : a.priority = b.priority := le_antisymm h1p (hac ▸ h2p)
    have hbc : b.priority = c.priority := hab ▸ hac
    rcases h1t with h | h
    · exact absurd hab h
    rcases h2t with h2 | h2
    · exact absurd hbc h2
    omega
  · exact Or.inl hac

theorem foldl_pick_spec (rest : List TaskRow) (acc : TaskRow) :
    (rest.foldl (fun b u => if better u b then u else b) acc = acc ∨
      rest.foldl (fun b u => if better u b then u else b) acc ∈ rest) ∧
    better acc (rest.foldl (fun b u => if better u b then u else b) acc) = false ∧
    ∀ u ∈ rest, better u (rest.foldl (fun b u => if better u b then u else b) acc) = false := by
  induction rest generalizing acc with
  | nil => exact ⟨Or.inl rfl, better_irrefl acc, by simp⟩
  | cons w tail ih =>
      simp only [List.foldl_cons]
      by_cases hw : better w acc = true
      · rw [if_pos hw]
        obtain ⟨hmem, hacc, hall⟩ := ih w
        refine ⟨?_, ?_, ?_⟩
        · rcases hmem with h | h
          · exact Or.inr (by rw [h]; exact List.mem_cons_self w tail)
          · exact Or.inr (List.mem_cons_of_mem w h)
        · by_cases hc : better acc (tail.foldl (fun b u => if better u b then u else b) w) = true
          · have := better_trans hw hc
            rw [this] at hacc
            exact absurd hacc (by simp)
          · simpa using hc
        · intro u hu
          rcases List.mem_cons.mp hu with h | h
          · rw [h]; exact hacc
          · exact hall u h
      · rw [if_neg hw]
        obtain ⟨hmem, hacc, hall⟩ := ih acc
        refine ⟨?_, hacc, ?_⟩
        · rcases hmem with h | h
          · exact Or.inl h
          · exact Or.inr (List.mem_cons_of_mem w h)
        · intro u hu
          rcases List.mem_cons.mp hu with h | h
          · subst h
            exact better_neg_trans (Bool.eq_false_iff.mpr (by simpa using hw)) hacc
          · exact hall u h

theorem pickBest_spec {l : List TaskRow} {t : TaskRow} (h : pickBest l = some t) :
    t ∈ l ∧ ∀ u ∈ l, better u t = false := by
  match l with
  | [] => simp [pickBest] at h
  | b :: rest =>
      simp only [pickBest, Option.some.injEq] at h
      obtain ⟨hmem, hacc, hall⟩ := foldl_pick_spec rest b
      rw [h] at hmem hacc hall
      constructor
      · rcases hmem with hEq | hIn
        · rw [hEq]; exact List.mem_cons_self b rest
        · exact List.mem_cons_of_mem b hIn
      · intro u hu
        rcases List.mem_cons.mp hu with hEq | hIn
        · rw [hEq]; exact hacc
        · exact hall u hIn

theorem pickBest_eq_none {l : List TaskRow} : pickBest l = none ↔ l = [] := by
  match l with
  | [] => simp [pickBest]
  | b :: rest => simp [pickBest]

/-! ## complete_task and the worker loop (jobs/worker.py) -/

/-- Python truthiness of an optional string argument (`if error:` is false
both for None and for the empty string). -/
def pyTruthyStr : Option String → Bool
  | none => false
  | some s => s != ""

/-- jsonb `||` of Postgres: key union, right operand wins on conflicts. -/
def jsonbMerge (p q : List (String × String)) : List (String × String) :=
  (p.filter fun kv => (q.lookup kv.1).isNone) ++ q

/-- complete_task (jobs/worker.py). `if error:` sets status ERROR with the
message truncated to 1000 characters; otherwise `if result:` sets status
DONE and merges the single-key object result into the payload with
`payload = COALESCE(payload, ...) || json-of-result`; otherwise it only
sets status DONE. The result record is modelled as an opaque string, the
empty string standing for an empty (falsy) record. -/
def complete_task (now : Nat) (task_id : Nat) (result : Option String)
    (error : Option String) (ts : List TaskRow) : List TaskRow :=
  if pyTruthyStr error then
    ts.map fun u =>
      if u.id = task_id then
        { u with status := TaskStatus.error,
                 error := some ((error.getD "").take 1000), updated_at := now }
      else u
  else if pyTruthyStr result then
    ts.map fun u =>
      if u.id = task_id then
        { u with status := TaskStatus.done,
                 payload := jsonbMerge u.payload [("result", result.getD "")],
                 updated_at := now }
      else u
  else
    ts.map fun u =>
      if u.id = task_id then
        { u with status := TaskStatus.done, updated_at := now }
      else u

def MAX_ATTEMPTS : Nat := 3

/-- run_once (jobs/worker.py): claim one task; if none, report False; else
dispatch it (the four-way handler dispatch and everything it calls is the
`dispatch` argument, returning either a result record or the string of the
raised exception). On success, complete with the result; on exception,
compare attempts against MAX_ATTEMPTS, but both branches call
complete_task with an error argument. -/
def run_once (now : Nat) (dispatch : ClaimedTask → Except String String)
    (ts : List TaskRow) : Bool × List TaskRow :=
  match claim_next_task now ts with
  | (none, ts1) => (false, ts1)
  | (some c, ts1) =>
      match dispatch c with
      | Except.ok r => (true, complete_task now c.id (some r) none ts1)
      | Except.error e =>
          if c.attempts ≥ MAX_ATTEMPTS then
            (true, complete_task now c.id none (some e) ts1)
          else
            (true, complete_task now c.id none
              (some ("Attempt " ++ toString c.attempts ++ ": " ++ e)) ts1)

/-- `n` successive atomic claims against the same store (each claim is the
single indivisible CTE of claim_next_task, so any concurrent execution of
n claim calls is equivalent to some serialization of them). -/
def claimMany (now : Nat) : Nat → List TaskRow → List ClaimedTask × List TaskRow
  | 0, ts => ([], ts)
  | Nat.succ n, ts =>
      match claim_next_task now ts with
      | (none, ts1) => ([], ts1)
      | (some c, ts1) =>
          let p := claimMany now n ts1
          (c :: p.1, p.2)

/-- The two-row scenario of the spec: REFRESH_STOCK at priority 50 and
BACKFILL_STOCK at priority 10, both enqueued for ticker ZZZ. -/
def scenarioStore : List TaskRow :=
  enqueue 1 2 "BACKFILL_STOCK" (some "ZZZ") 10 []
    (enqueue 0 1 "REFRESH_STOCK" (some "ZZZ") 50 [] [])

/-- C1: claim_next_task on a store with at least one PENDING row returns
and transitions to RUNNING exactly the PENDING row that is maximal for
(priority descending, created_at ascending), incrementing its attempts by
one; on a store with no PENDING row it returns none and leaves every row
unchanged; and in the two-row scenario it returns the REFRESH_STOCK row
enqueued at priority 50 rather than the BACKFILL_STOCK row at priority 10. -/
theorem C1_claim_next_task_correct (now : Nat) (ts : List TaskRow) :
    ((∀ t ∈ ts, t.status ≠ TaskStatus.pending) →
      claim_next_task now ts = (none, ts)) ∧
    ((∃ t ∈ ts, t.status = TaskStatus.pending) →
      ∃ b, b ∈ ts ∧ b.status = TaskStatus.pending ∧
        (∀ u ∈ ts, u.status = TaskStatus.pending →
          u.priority ≤ b.priority ∧
          (u.priority = b.priority → b.created_at ≤ u.created_at)) ∧
        claim_next_task now ts =
          (some { id := b.id, task_type := b.task_type, ticker := b.ticker,
                  payload := b.payload, attempts := b.attempts + 1 },
           ts.map fun u =>
             if u.id = b.id then
               { u with status := TaskStatus.running, attempts := u.attempts + 1,
                        updated_at := now }
             else u)) ∧
    (claim_next_task 2 scenarioStore).1 =
      some { id := 1, task_type := "REFRESH_STOCK", ticker := some "ZZZ",
             payload := [], attempts := 1 } := by
  refine ⟨?_, ?_, by decide⟩
  · intro h
    have hfil : ts.filter (fun t => t.status = TaskStatus.pending) = [] := by
      rw [List.filter_eq_nil_iff]
      intro a ha
      simpa using h a ha
    simp [claim_next_task, hfil, pickBest]
  · rintro ⟨t, ht, hp⟩
    cases hpb : pickBest (ts.filter fun u => u.status = TaskStatus.pending) with
    | none =>
        exfalso
        have : ts.filter (fun u => u.status = TaskStatus.pending) = [] :=
          pickBest_eq_none.mp hpb
        have : t ∈ ts.filter (fun u => u.status = TaskStatus.pending) := by
          simp [List.mem_filter, ht, hp]
        simp_all
    | some b =>
        obtain ⟨hbmem, hbmax⟩ := pickBest_spec hpb
        have hb1 : b ∈ ts ∧ b.status = TaskStatus.pending := by
          simpa [List.mem_filter] using hbmem
        refine ⟨b, hb1.1, hb1.2, ?_, ?_⟩
        · intro u hu hup
          have humem : u ∈ ts.filter (fun v => v.status = TaskStatus.pending) := by
            simp [List.mem_filter, hu, hup]
          have := hbmax u humem
          simp only [better, Bool.or_eq_false_iff, Bool.and_eq_false_iff,
            decide_eq_false_iff_not, not_lt, beq_eq_false_iff_ne, ne_eq] at this
          obtain ⟨h1, h2⟩ := this
          exact ⟨h1, fun he => by rcases h2 with h | h; exacts [absurd he h, h]⟩
        · simp only [claim_next_task, hpb]

/-! ## Lookup semantics of the jsonb merge (C9) -/

theorem jsonbMerge_lookup (p q : List (String × String)) (k : String) :
    (jsonbMerge p q).lookup k =
      match q.lookup k with
      | some v => some v
      | none => p.lookup k := by
  induction p with
  | nil =>
      simp only [jsonbMerge, List.filter_nil, List.nil_append]
      cases q.lookup k <;> simp [List.lookup]
  | cons kv tl ih =>
      rcases kv with ⟨k0, v0⟩
      by_cases hq0 : (q.lookup k0).isNone
      · simp only [jsonbMerge, List.filter_cons] at ih ⊢
        rw [if_pos (by simpa using hq0)]
        by_cases hk : k = k0
        · subst hk
          rw [Option.isNone_iff_eq_none] at hq0
          simp [List.lookup, hq0]
        · have : (k == k0) = false := by simpa using hk
          simp only [List.cons_append, List.lookup, this]
          exact ih
      · simp only [jsonbMerge, List.filter_cons] at ih ⊢
        rw [if_neg (by simpa using hq0)]
        by_cases hk : k = k0
        · subst hk
          rw [Option.isNone_iff_eq_none] at hq0
          obtain ⟨v, hv⟩ := Option.ne_none_iff_exists.mp hq0
          rw [ih, ← hv]
        · have hbe : (k == k0) = false := by simpa using hk
          rw [ih]
          cases hql : q.lookup k <;> simp [List.lookup, hbe]

/-! ## Lemmas for concurrent claiming (C2) -/

theorem countPending_cons (u : TaskRow) (tl : List TaskRow) :
    countPending (u :: tl) =
      (if u.status = TaskStatus.pending then 1 else 0) + countPending tl := by
  simp only [countPending, List.filter_cons]
  by_cases h : u.status = TaskStatus.pending
  · simp [h, Nat.add_comm]
  · simp [h]

theorem countPending_pos {ts : List TaskRow} {b : TaskRow} (hb : b ∈ ts)
    (hp : b.status = TaskStatus.pending) : 1 ≤ countPending ts := by
  induction ts with
  | nil => simp at hb
  | cons u tl ih =>
      rw [countPending_cons]
      rcases List.mem_cons.mp hb with h | h
      · subst h; simp [hp]
      · have := ih h; omega

theorem claim_next_task_ids (now : Nat) (ts : List TaskRow) :
    ((claim_next_task now ts).2.map TaskRow.id) = ts.map TaskRow.id := by
  unfold claim_next_task
  cases hpb : pickBest (ts.filter fun t => t.status = TaskStatus.pending) with
  | none => rfl
  | some b =>
      simp only [List.map_map]
      refine List.map_congr_left ?_
      intro u _
      by_cases h : u.id = b.id <;> simp [h]

theorem claim_next_task_none_iff (now : Nat) (ts : List TaskRow) :
    (claim_next_task now ts).1 = none ↔ countPending ts = 0 := by
  unfold claim_next_task
  cases hpb : pickBest (ts.filter fun t => t.status = TaskStatus.pending) with
  | none =>
      simp only [true_iff]
      have := pickBest_eq_none.mp hpb
      simp [countPending, this]
  | some b =>
      simp only [reduceCtorEq, false_iff]
      intro hc
      have hnil : ts.filter (fun t => t.status = TaskStatus.pending) = [] :=
        List.length_eq_zero.mp hc
      rw [hnil] at hpb
      simp [pickBest] at hpb

theorem claim_next_task_some {now : Nat} {ts ts1 : List TaskRow} {c : ClaimedTask}
    (h : claim_next_task now ts = (some c, ts1)) :
    ∃ b, b ∈ ts ∧ b.status = TaskStatus.pending ∧ c.id = b.id ∧
      ts1 = ts.map fun u =>
        if u.id = b.id then
          { u with status := TaskStatus.running, attempts := u.attempts + 1,
                   updated_at := now }
        else u := by
  unfold claim_next_task at h
  cases hpb : pickBest (ts.filter fun t => t.status = TaskStatus.pending) with
  | none => rw [hpb] at h; simp at h
  | some b =>
      rw [hpb] at h
      obtain ⟨hbmem, -⟩ := pickBest_spec hpb
      have hb : b ∈ ts ∧ b.status = TaskStatus.pending := by
        simpa [List.mem_filter] using hbmem
      obtain ⟨hc, hts⟩ := Prod.mk.injEq .. ▸ h
      refine ⟨b, hb.1, hb.2, ?_, hts.symm⟩
      have : c = { id := b.id, task_type := b.task_type, ticker := b.ticker,
                   payload := b.payload, attempts := b.attempts + 1 } := by
        exact (Option.some.injEq .. ▸ hc).symm
      rw [this]

theorem countPending_update {now : Nat} {ts : List TaskRow} {b : TaskRow}
    (hnd : (ts.map TaskRow.id).Nodup) (hb : b ∈ ts)
    (hp : b.status = TaskStatus.pending) :
    countPending (ts.map fun u =>
      if u.id = b.id then
        { u with status := TaskStatus.running, attempts := u.attempts + 1,
                 updated_at := now }
      else u) = countPending ts - 1 := by
  induction ts with
  | nil => simp at hb
  | cons u tl ih =>
      simp only [List.map_cons, List.nodup_cons, List.mem_map] at hnd
      obtain ⟨hnotin, hndtl⟩ := hnd
      rcases List.mem_cons.mp hb with h | h
      · subst h
        have htl : (tl.map fun u =>
            if u.id = b.id then
              { u with status := TaskStatus.running, attempts := u.attempts + 1,
                       updated_at := now }
            else u) = tl := by
          refine List.map_congr_left ?_ |>.trans (List.map_id tl)
          intro v hv
          have : v.id ≠ b.id := fun hEq => hnotin ⟨v, hv, hEq⟩
          simp [this]
        simp only [List.map_cons, if_pos rfl, htl, countPending_cons, hp]
        simp
      · have hne : u.id ≠ b.id := by
          intro hEq
          exact hnotin ⟨b, h, hEq.symm⟩
        have h1 := countPending_pos h hp
        simp only [List.map_cons, if_neg hne, countPending_cons, ih hndtl h]
        omega

/-- No row whose id currently has a non-PENDING status anywhere in the store. -/
def NotPendingId (ts : List TaskRow) (i : Nat) : Prop :=
  ∀ row ∈ ts, row.id = i → row.status ≠ TaskStatus.pending

theorem notPendingId_preserved {now : Nat} {ts ts1 : List TaskRow}
    {c : ClaimedTask} {i : Nat} (h : claim_next_task now ts = (some c, ts1))
    (hnp : NotPendingId ts i) : NotPendingId ts1 i := by
  obtain ⟨b, -, -, -, hts1⟩ := claim_next_task_some h
  subst hts1
  intro row hrow hid
  obtain ⟨v, hv, hEq⟩ := List.mem_map.mp hrow
  by_cases hvb : v.id = b.id
  · rw [if_pos hvb] at hEq
    rw [← hEq]
    simp
  · rw [if_neg hvb] at hEq
    subst hEq
    exact hnp v hv hid

theorem notPendingId_claimed {now : Nat} {ts ts1 : List TaskRow}
    {c : ClaimedTask} (h : claim_next_task now ts = (some c, ts1)) :
    NotPendingId ts1 c.id := by
  obtain ⟨b, -, -, hcb, hts1⟩ := claim_next_task_some h
  subst hts1
  intro row hrow hid
  obtain ⟨v, hv, hEq⟩ := List.mem_map.mp hrow
  by_cases hvb : v.id = b.id
  · rw [if_pos hvb] at hEq
    rw [← hEq]
    simp
  · rw [if_neg hvb] at hEq
    subst hEq
    exact absurd (hid.trans hcb) hvb

theorem claimMany_avoid {now : Nat} {i : Nat} :
    ∀ (n : Nat) (ts : List TaskRow), NotPendingId ts i →
      i ∉ (claimMany now n ts).1.map ClaimedTask.id := by
  intro n
  induction n with
  | zero => intro ts _ h; simp [claimMany] at h
  | succ n ih =>
      intro ts hnp
      simp only [claimMany]
      cases hcl : claim_next_task now ts with
      | mk o ts1 =>
          cases o with
          | none => simp
          | some c =>
              simp only [List.map_cons, List.mem_cons]
              rintro (hEq | hmem)
              · obtain ⟨b, hbm, hbp, hcb, -⟩ := claim_next_task_some hcl
                exact hnp b hbm (hcb.symm.trans hEq.symm) hbp
              · exact ih ts1 (notPendingId_preserved hcl hnp) hmem

/-- C2: for every number n of claim attempts (each an atomic claim, so a
concurrent execution is a serialization of them) against a store with
distinct row ids, the successfully claimed rows number exactly
min n (number of PENDING rows), and no row id is claimed twice. -/
theorem C2_concurrent_claims (now : Nat) (n : Nat) (ts : List TaskRow)
    (hnd : (ts.map TaskRow.id).Nodup) :
    (claimMany now n ts).1.length = min n (countPending ts) ∧
    ((claimMany now n ts).1.map ClaimedTask.id).Nodup := by
  induction n generalizing ts with
  | zero => simp [claimMany]
  | succ n ih =>
      simp only [claimMany]
      cases hcl : claim_next_task now ts with
      | mk o ts1 =>
          cases o with
          | none =>
              have h0 : countPending ts = 0 := by
                have := claim_next_task_none_iff now ts
                rw [hcl] at this
                exact this.mp rfl
              simp [h0]
          | some c =>
              obtain ⟨b, hbm, hbp, hcb, hts1⟩ := claim_next_task_some hcl
              have hids : ts1.map TaskRow.id = ts.map TaskRow.id := by
                have := claim_next_task_ids now ts
                rw [hcl] at this
                exact this
              have hnd1 : (ts1.map TaskRow.id).Nodup := hids ▸ hnd
              have hcount : countPending ts1 = countPending ts - 1 := by
                rw [hts1]
                exact countPending_update hnd hbm hbp
              have hpos : 1 ≤ countPending ts := countPending_pos hbm hbp
              obtain ⟨ihlen, ihnd⟩ := ih ts1 hnd1
              constructor
              · simp only [List.length_cons, ihlen, hcount]
                omega
              · simp only [List.map_cons, List.nodup_cons]
                exact ⟨claimMany_avoid n ts1 (notPendingId_claimed hcl), ihnd⟩

/-- Closed instance of C2: two claim attempts against the two-row scenario
store (both rows PENDING, distinct ids) claim exactly two distinct rows. -/
theorem C2_concurrent_claims_witness :
    (claimMany 3 2 scenarioStore).1.length = min 2 (countPending scenarioStore) ∧
    ((claimMany 3 2 scenarioStore).1.map ClaimedTask.id).Nodup :=
  C2_concurrent_claims 3 2 scenarioStore (by decide)

/-- Closed instance of C1: applied to the concrete two-row scenario store,
the claim hypothesis (a PENDING row exists) is discharged and the claimed
row is PENDING and priority-maximal. -/
theorem C1_claim_next_task_correct_witness :
    ∃ b, b ∈ scenarioStore ∧ b.status = TaskStatus.pending ∧
      (∀ u ∈ scenarioStore, u.status = TaskStatus.pending →
        u.priority ≤ b.priority ∧
        (u.priority = b.priority → b.created_at ≤ u.created_at)) ∧
      claim_next_task 2 scenarioStore =
        (some { id := b.id, task_type := b.task_type, ticker := b.ticker,
                payload := b.payload, attempts := b.attempts + 1 },
         scenarioStore.map fun u =>
           if u.id = b.id then
             { u with status := TaskStatus.running, attempts := u.attempts + 1,
                      updated_at := 2 }
           else u) :=
  (C1_claim_next_task_correct 2 scenarioStore).2.1 (by decide)

/-! ## C9: complete_task with a result record -/

/-- A store with one RUNNING row whose payload already contains the key
result (payloads are arbitrary at enqueue time, so this is reachable). -/
def c9Store : List TaskRow :=
  [{ id := 0, task_type := "REFRESH_STOCK", ticker := some "ZZZ", priority := 50,
     status := TaskStatus.running, payload := [("result", "old")], attempts := 1,
     error := none, created_at := 0, updated_at := 0 }]

/-- C9 counterexample: completing a task whose payload already holds a key
named result does NOT keep that key's pre-existing value: the jsonb merge
`payload || json-of-result` is right-biased, so the result object
overwrites it. -/
theorem C9_counterexample_result_key_overwritten :
    ((complete_task 1 0 (some "new") none c9Store).map
        (fun u => u.payload.lookup "result") = [some "new"]) ∧
    ¬ ((complete_task 1 0 (some "new") none c9Store).map
        (fun u => u.payload.lookup "result") = [some "old"]) := by decide

/-- C9 (amended): completing a task with a non-empty result record sets
status DONE and merges the single-key object (result key) into the row's
payload; the result key is overwritten if already present, every OTHER
pre-existing payload key keeps its pre-existing value, and all fields of
the row except status, payload and updated_at are unchanged; rows with a
different id are untouched. -/
theorem C9_complete_task_merge (now task_id : Nat) (r : String) (hr : r ≠ "")
    (ts : List TaskRow) :
    ∃ f : TaskRow → TaskRow,
      complete_task now task_id (some r) none ts = ts.map f ∧
      (∀ u, u.id ≠ task_id → f u = u) ∧
      (∀ u, u.id = task_id →
        (f u).status = TaskStatus.done ∧
        (f u).payload.lookup "result" = some r ∧
        (∀ k, k ≠ "result" → (f u).payload.lookup k = u.payload.lookup k) ∧
        (f u).id = u.id ∧ (f u).task_type = u.task_type ∧
        (f u).ticker = u.ticker ∧ (f u).priority = u.priority ∧
        (f u).attempts = u.attempts ∧ (f u).error = u.error ∧
        (f u).created_at = u.created_at ∧ (f u).updated_at = now) := by
  refine ⟨fun u =>
    if u.id = task_id then
      { u with status := TaskStatus.done,
               payload := jsonbMerge u.payload [("result", r)],
               updated_at := now }
    else u, ?_, ?_, ?_⟩
  · unfold complete_task
    rw [if_neg (by simp [pyTruthyStr]),
        if_pos (by simp [pyTruthyStr, bne_iff_ne, hr])]
    rfl
  · intro u hu
    simp [hu]
  · intro u hu
    simp only [if_pos hu, true_and, and_true]
    constructor
    · rw [jsonbMerge_lookup]
      simp [List.lookup]
    · intro k hk
      rw [jsonbMerge_lookup]
      have : (k == "result") = false := by simpa using hk
      simp [List.lookup, this]

/-- Closed instance of C9 (amended) at a concrete row and result record. -/
theorem C9_complete_task_merge_witness :
    ("new" : String) ≠ "" ∧
    ∃ f : TaskRow → TaskRow,
      complete_task 1 0 (some "new") none c9Store = c9Store.map f ∧
      (∀ u, u.id ≠ 0 → f u = u) ∧
      (∀ u, u.id = 0 →
        (f u).status = TaskStatus.done ∧
        (f u).payload.lookup "result" = some "new" ∧
        (∀ k, k ≠ "result" → (f u).payload.lookup k = u.payload.lookup k) ∧
        (f u).id = u.id ∧ (f u).task_type = u.task_type ∧
        (f u).ticker = u.ticker ∧ (f u).priority = u.priority ∧
        (f u).attempts = u.attempts ∧ (f u).error = u.error ∧
        (f u).created_at = u.created_at ∧ (f u).updated_at = 1) :=
  ⟨by decide, C9_complete_task_merge 1 0 "new" (by decide) c9Store⟩

/-! ## C3: failure path of run_once -/

/-- A store with one PENDING row whose attempts counter is already 2, so
the claim returns it with attempts 3 = MAX_ATTEMPTS. -/
def c3Store : List TaskRow :=
  [{ id := 0, task_type := "REFRESH_STOCK", ticker := some "ZZZ", priority := 50,
     status := TaskStatus.pending, payload := [], attempts := 2, error := none,
     created_at := 0, updated_at := 0 }]

/-- C3 failing input: a dispatched handler that raises an exception whose
message is empty (e.g. `raise ValueError()`, whose str() is the empty
string) on a task claimed at attempts = 3. run_once then calls
complete_task with that empty error string, Python truthiness sends it
down the DONE branch, and the row ends DONE - not ERROR as the claim (and
the worker's own log line announcing it is marking the task as ERROR)
requires. With attempts below the maximum the message is prefixed with
a non-empty Attempt prefix, so only the at-maximum branch is affected. -/
theorem C3_empty_error_message_marks_done :
    (run_once 1 (fun _ => Except.error "") c3Store).2.map TaskRow.status
        = [TaskStatus.done] ∧
    ¬ ((run_once 1 (fun _ => Except.error "") c3Store).2.map TaskRow.status
        = [TaskStatus.error]) ∧
    (run_once 1 (fun _ => Except.error "") c3Store).2.map TaskRow.error
        = [none] ∧
    (run_once 1 (fun _ => Except.error "boom") c3Store).2.map TaskRow.status
        = [TaskStatus.error] := by decide

/-! ## C4: BACKFILL_STOCK dispatch vs the run_pipeline_for_ticker signature -/

/-- The declared parameter names of run_pipeline_for_ticker
(jobs/pipeline.py, which has no **kwargs). -/
def run_pipeline_for_ticker_params : List String :=
  ["ticker", "news_hours", "score_limit", "prices_days", "agg_days",
   "metrics_days", "window_days"]

/-- The keyword arguments handle_backfill_stock (jobs/worker.py) passes to
run_pipeline_for_ticker. -/
def handle_backfill_stock_kwargs : List String :=
  ["ticker", "news_hours", "score_limit", "prices_days", "agg_days",
   "metrics_days", "window_days_list"]

/-- The keyword arguments handle_refresh_stock passes (for contrast: these
are all declared parameters). -/
def handle_refresh_stock_kwargs : List String :=
  ["ticker", "news_hours", "score_limit", "prices_days", "agg_days",
   "metrics_days", "window_days"]

/-- Python call semantics for a function without **kwargs: if any keyword
argument is not a declared parameter, the call raises TypeError before the
callee body ever runs; otherwise the body runs. -/
def pythonKwCall {α : Type} (params kwargs : List String) (body : Unit → α) :
    Except String α :=
  match kwargs.find? (fun k => !(params.contains k)) with
  | some k => Except.error ("TypeError: unexpected keyword argument " ++ k)
  | none => Except.ok (body ())

/-- Ticker resolution of the BACKFILL_STOCK handler: task.ticker, falling
back to the payload's ticker key. -/
def resolvedTicker (task : ClaimedTask) : Option String :=
  match task.ticker with
  | some t => some t
  | none => task.payload.lookup "ticker"

/-- handle_backfill_stock (jobs/worker.py): resolve the ticker (raising
ValueError when absent), then call run_pipeline_for_ticker with the
backfill parameter set, whose last keyword is window_days_list. The
pipeline body itself is the opaque `run` argument. -/
def handle_backfill_stock {α : Type} (task : ClaimedTask) (run : Unit → α) :
    Except String α :=
  match resolvedTicker task with
  | none => Except.error "No ticker specified in task"
  | some _ =>
      pythonKwCall run_pipeline_for_ticker_params handle_backfill_stock_kwargs run

/-- C4: the BACKFILL_STOCK handler can never run the pipeline: for every
task and every pipeline body, the call raises TypeError on the keyword
window_days_list (or ValueError when no ticker is given), because
window_days_list is not a parameter of run_pipeline_for_ticker; in
particular it raises on the default-payload task for ticker ZZZ. The
REFRESH_STOCK call site, by contrast, passes only declared parameters. -/
theorem C4_backfill_stock_raises_typeerror :
    (∀ (α : Type) (task : ClaimedTask) (run : Unit → α),
      handle_backfill_stock task run =
        Except.error "TypeError: unexpected keyword argument window_days_list" ∨
      handle_backfill_stock task run =
        Except.error "No ticker specified in task") ∧
    "window_days_list" ∉ run_pipeline_for_ticker_params ∧
    handle_backfill_stock
        { id := 1, task_type := "BACKFILL_STOCK", ticker := some "ZZZ",
          payload := [], attempts := 1 } (fun _ => (0 : Nat)) =
      Except.error "TypeError: unexpected keyword argument window_days_list" ∧
    handle_refresh_stock_kwargs.all
        (fun k => run_pipeline_for_ticker_params.contains k) = true := by
  refine ⟨?_, by decide, rfl, by decide⟩
  intro α task run
  cases h : resolvedTicker task with
  | none =>
      right
      simp [handle_backfill_stock, h]
  | some t =>
      left
      have hcall : handle_backfill_stock task run =
          pythonKwCall run_pipeline_for_ticker_params
            handle_backfill_stock_kwargs run := by
        simp [handle_backfill_stock, h]
      rw [hcall]
      rfl

/-! ## Pipeline orchestrator (jobs/pipeline.py) -/

/-- One pipeline step: given the external world state (the database plus
collaborators), either return a step-result record and the new state, or
raise (Except.error with the exception message). -/
def PipelineStep (s r : Type) : Type := s → Except String (r × s)

/-- Run the named steps in order inside the try block: each success
records (name, result) in the summary and threads the state; the first
raise stops execution, keeping the state and the recorded results of the
completed prefix. -/
def runStepList {s r : Type} :
    List (String × PipelineStep s r) → s → List (String × r) × Option String × s
  | [], st => ([], none, st)
  | (name, f) :: rest, st =>
      match f st with
      | Except.error e => ([], some e, st)
      | Except.ok (res, st1) =>
          ((name, res) :: (runStepList rest st1).1, (runStepList rest st1).2.1,
           (runStepList rest st1).2.2)

/-- The summary dict run_pipeline_for_ticker always returns. -/
structure PipelineSummary (s r : Type) where
  ticker : String
  steps : List (String × r)
  error : Option String
  success : Bool
  elapsed_seconds : Nat
  finalState : s

/-- run_pipeline_for_ticker (jobs/pipeline.py): uppercase the ticker, run
the five steps inside try/except, record the first raised error if any,
set success true only when no step raised, stamp the elapsed time, and
always return the summary (the function is total: it never raises). -/
def run_pipeline_for_ticker {s r : Type} (ticker : String)
    (steps : List (String × PipelineStep s r)) (st0 : s) (elapsed : Nat) :
    PipelineSummary s r :=
  let p := runStepList steps st0
  { ticker := ticker.toUpper, steps := p.1, error := p.2.1,
    success := p.2.1.isNone, elapsed_seconds := elapsed, finalState := p.2.2 }

/-- The five fixed steps with their summary keys, in source order. -/
def pipelineSteps {s r : Type} (f1 f2 f3 f4 f5 : PipelineStep s r) :
    List (String × PipelineStep s r) :=
  [("ingest_news", f1), ("score_items", f2), ("ingest_prices", f3),
   ("daily_agg", f4), ("metrics", f5)]

theorem runStepList_prefix_error {s r : Type}
    {pre : List (String × PipelineStep s r)} {st0 st1 : s}
    {res : List (String × r)} (hpre : runStepList pre st0 = (res, none, st1))
    (nm : String) (f : PipelineStep s r) (rest : List (String × PipelineStep s r))
    (e : String) (hf : f st1 = Except.error e) :
    runStepList (pre ++ (nm, f) :: rest) st0 = (res, some e, st1) := by
  induction pre generalizing st0 res with
  | nil =>
      simp only [runStepList, Prod.mk.injEq] at hpre
      obtain ⟨h1, -, h3⟩ := hpre
      subst h1
      subst h3
      rw [List.nil_append]
      simp [runStepList, hf]
  | cons hd tl ih =>
      rcases hd with ⟨n0, f0⟩
      cases hf0 : f0 st0 with
      | error e0 =>
          simp only [runStepList, hf0] at hpre
          simp at hpre
      | ok p0 =>
          rcases p0 with ⟨r0, st0a⟩
          simp only [runStepList, hf0, Prod.mk.injEq] at hpre
          obtain ⟨h1, h2, h3⟩ := hpre
          have htl : runStepList tl st0a =
              ((runStepList tl st0a).1, none, st1) := by
            rw [← h2, ← h3]
          have hrec := ih htl
          simp only [List.cons_append, runStepList, hf0, List.append_eq]
          rw [hrec, ← h1]

/-- C8: the orchestrator always returns a summary carrying the uppercased
ticker, the per-step results, the elapsed time and a success flag; success
is true iff no step raised; when all five steps succeed, all five results
are recorded in order and the final state is the composition of all five
effects; when a step raises after a successful prefix, the prefix's
recorded results and state effects are retained, the error is recorded,
success is false, and the steps after the raising one are never executed
(the summary does not depend on them). -/
theorem C8_run_pipeline_total {s r : Type} (t : String) (el : Nat) (st0 : s)
    (f1 f2 f3 f4 f5 : PipelineStep s r) :
    ((run_pipeline_for_ticker t (pipelineSteps f1 f2 f3 f4 f5) st0 el).ticker
        = t.toUpper ∧
     (run_pipeline_for_ticker t (pipelineSteps f1 f2 f3 f4 f5) st0 el).elapsed_seconds
        = el ∧
     ((run_pipeline_for_ticker t (pipelineSteps f1 f2 f3 f4 f5) st0 el).success = true ↔
      (run_pipeline_for_ticker t (pipelineSteps f1 f2 f3 f4 f5) st0 el).error = none)) ∧
    (∀ r1 st1 r2 st2 r3 st3 r4 st4 r5 st5,
      f1 st0 = Except.ok (r1, st1) → f2 st1 = Except.ok (r2, st2) →
      f3 st2 = Except.ok (r3, st3) → f4 st3 = Except.ok (r4, st4) →
      f5 st4 = Except.ok (r5, st5) →
      run_pipeline_for_ticker t (pipelineSteps f1 f2 f3 f4 f5) st0 el =
        { ticker := t.toUpper,
          steps := [("ingest_news", r1), ("score_items", r2),
                    ("ingest_prices", r3), ("daily_agg", r4), ("metrics", r5)],
          error := none, success := true, elapsed_seconds := el,
          finalState := st5 }) ∧
    (∀ pre nm f rest res st1 e,
      pipelineSteps f1 f2 f3 f4 f5 = pre ++ (nm, f) :: rest →
      runStepList pre st0 = (res, none, st1) →
      f st1 = Except.error e →
      run_pipeline_for_ticker t (pipelineSteps f1 f2 f3 f4 f5) st0 el =
        { ticker := t.toUpper, steps := res, error := some e, success := false,
          elapsed_seconds := el, finalState := st1 }) := by
  refine ⟨⟨rfl, rfl, ?_⟩, ?_, ?_⟩
  · simp [run_pipeline_for_ticker, Option.isNone_iff_eq_none]
  · intro r1 st1 r2 st2 r3 st3 r4 st4 r5 st5 h1 h2 h3 h4 h5
    simp [run_pipeline_for_ticker, pipelineSteps, runStepList, h1, h2, h3, h4, h5]
  · intro pre nm f rest res st1 e hsplit hpre hf
    have := runStepList_prefix_error hpre nm f rest e hf
    rw [← hsplit] at this
    simp [run_pipeline_for_ticker, this]

/-- Closed instance of C8: five concrete always-succeeding steps over a
Nat state produce the five recorded results, success and the composed
state; a concrete third-step failure after a successful two-step prefix
retains the prefix and reports the error. -/
theorem C8_run_pipeline_total_witness :
    (run_pipeline_for_ticker "tsla"
        (pipelineSteps (fun n => Except.ok (1, n + 1)) (fun n => Except.ok (2, n + 1))
          (fun n => Except.ok (3, n + 1)) (fun n => Except.ok (4, n + 1))
          (fun n => Except.ok (5, n + 1))) 0 7 =
      { ticker := "tsla".toUpper,
        steps := [("ingest_news", 1), ("score_items", 2), ("ingest_prices", 3),
                  ("daily_agg", 4), ("metrics", 5)],
        error := none, success := true, elapsed_seconds := 7,
        finalState := 5 }) ∧
    (run_pipeline_for_ticker "tsla"
        (pipelineSteps (fun n => Except.ok (1, n + 1)) (fun n => Except.ok (2, n + 1))
          (fun _ => Except.error "boom") (fun n => Except.ok (4, n + 1))
          (fun n => Except.ok (5, n + 1))) 0 7 =
      { ticker := "tsla".toUpper,
        steps := [("ingest_news", 1), ("score_items", 2)],
        error := some "boom", success := false, elapsed_seconds := 7,
        finalState := 2 }) :=
  ⟨(C8_run_pipeline_total "tsla" 7 0 _ _ _ _ _).2.1 1 1 2 2 3 3 4 4 5 5
      rfl rfl rfl rfl rfl,
   (C8_run_pipeline_total "tsla" 7 0 _ _ _ _ _).2.2
      [("ingest_news", fun n => Except.ok (1, n + 1)),
       ("score_items", fun n => Except.ok (2, n + 1))]
      "ingest_prices" (fun _ => Except.error "boom")
      [("daily_agg", fun n => Except.ok (4, n + 1)),
       ("metrics", fun n => Except.ok (5, n + 1))]
      [("ingest_news", 1), ("score_items", 2)] 2 "boom" rfl rfl rfl⟩

/-! ## Windowed metrics engine (compute_window_metrics, jobs/pipeline.py)

Python floats are modelled as real numbers; np.std is the population
standard deviation and np.corrcoef the Pearson correlation coefficient. -/

/-- np.mean of a list. -/
noncomputable def listMean (xs : List ℝ) : ℝ := xs.sum / xs.length

/-- Sum of squared deviations from the mean. -/
noncomputable def sqDevSum (xs : List ℝ) : ℝ :=
  (xs.map fun x => (x - listMean xs) ^ 2).sum

/-- np.std: square root of the mean squared deviation. -/
noncomputable def npStd (xs : List ℝ) : ℝ := Real.sqrt (sqDevSum xs / xs.length)

/-- Sum of products of deviations of paired entries. -/
noncomputable def covSum (xs ys : List ℝ) : ℝ :=
  ((xs.zip ys).map fun p => (p.1 - listMean xs) * (p.2 - listMean ys)).sum

/-- Pearson correlation coefficient, the off-diagonal entry of
np.corrcoef. -/
noncomputable def pearson (xs ys : List ℝ) : ℝ :=
  covSum xs ys / (Real.sqrt (sqDevSum xs) * Real.sqrt (sqDevSum ys))

/-- np.sign. -/
noncomputable def npSign (x : ℝ) : ℝ := if 0 < x then 1 else if x < 0 then -1 else 0

/-- The corr of one window: 0.0 when either series has standard deviation
below the 0.001 tolerance, otherwise Pearson. The isnan fallback of the
source is unreachable in exact real arithmetic: standard deviations of at
least 0.001 make the denominator nonzero. -/
noncomputable def window_corr (ss rs : List ℝ) : ℝ :=
  if npStd ss < 0.001 ∨ npStd rs < 0.001 then 0 else pearson ss rs

/-- Number of paired days whose sentiment sign equals the return sign. -/
noncomputable def matchCount (ss rs : List ℝ) : ℕ :=
  ((ss.zip rs).filter fun p => npSign p.1 = npSign p.2).length

/-- directional_match: matching-sign days over the window length. -/
noncomputable def directional_match (ss rs : List ℝ) : ℝ :=
  (matchCount ss rs : ℝ) / ss.length

/-- misalignment_days: window length minus matching-sign days. -/
noncomputable def misalignment_days (ss rs : List ℝ) : ℤ :=
  (ss.length : ℤ) - matchCount ss rs

/-- The blended score before clamping. -/
noncomputable def alignment_score_raw (ss rs : List ℝ) : ℝ :=
  0.5 * window_corr ss rs + 0.5 * (directional_match ss rs * 2 - 1)

/-- alignment_score: the blend clamped to [-1, 1]
(`max(-1.0, min(1.0, alignment_score))`). -/
noncomputable def alignment_score (ss rs : List ℝ) : ℝ :=
  max (-1) (min 1 (alignment_score_raw ss rs))

/-- The interpretation thresholds, applied to the given score. -/
noncomputable def interpretation_of (x : ℝ) : String :=
  if x ≥ 0.3 then "Aligned" else if x ≤ -0.3 then "Misleading" else "Noisy"

/-- Python round-half-to-even of a real to an integer. -/
noncomputable def roundHalfEven (x : ℝ) : ℤ :=
  if Int.fract x < 1 / 2 then ⌊x⌋
  else if 1 / 2 < Int.fract x then ⌈x⌉
  else if Even ⌊x⌋ then ⌊x⌋ else ⌊x⌋ + 1

/-- Python `round(x, 4)`. -/
noncomputable def round4 (x : ℝ) : ℝ := (roundHalfEven (x * 10000) : ℝ) / 10000

/-- The record stored per (ticker, date_end, window_days). -/
structure WindowMetrics where
  corr : ℝ
  directional_match : ℝ
  alignment_score : ℝ
  misalignment_days : ℤ
  interpretation : String

/-- compute_window_metrics (jobs/pipeline.py): the returned dict, with
corr, directional_match and alignment_score rounded to 4 decimal places
and the interpretation derived from the unrounded alignment_score. -/
noncomputable def compute_window_metrics (ss rs : List ℝ) : WindowMetrics :=
  { corr := round4 (window_corr ss rs),
    directional_match := round4 (directional_match ss rs),
    alignment_score := round4 (alignment_score ss rs),
    misalignment_days := misalignment_days ss rs,
    interpretation := interpretation_of (alignment_score ss rs) }

/-! ## Rounding lemmas -/

theorem floor_le_roundHalfEven (x : ℝ) : ⌊x⌋ ≤ roundHalfEven x := by
  unfold roundHalfEven
  split
  · exact le_refl _
  · split
    · exact Int.floor_le_ceil x
    · split
      · exact le_refl _
      · omega

theorem roundHalfEven_le_ceil (x : ℝ) : roundHalfEven x ≤ ⌈x⌉ := by
  unfold roundHalfEven
  split
  · exact Int.floor_le_ceil x
  · split
    · exact le_refl _
    · rename_i h1 h2
      have hfr : Int.fract x = 1 / 2 := le_antisymm (not_lt.mp h2) (not_lt.mp h1)
      have hx : (⌊x⌋ : ℝ) < x := by
        unfold Int.fract at hfr
        linarith
      have hlt : ⌊x⌋ < ⌈x⌉ := Int.lt_ceil.mpr hx
      split
      · omega
      · omega

theorem round4_bounds {x : ℝ} (h1 : -1 ≤ x) (h2 : x ≤ 1) :
    -1 ≤ round4 x ∧ round4 x ≤ 1 := by
  have hub : roundHalfEven (x * 10000) ≤ 10000 := by
    refine le_trans (roundHalfEven_le_ceil _) ?_
    rw [Int.ceil_le]
    push_cast
    linarith
  have hlb : (-10000 : ℤ) ≤ roundHalfEven (x * 10000) := by
    refine le_trans ?_ (floor_le_roundHalfEven _)
    rw [Int.le_floor]
    push_cast
    linarith
  have hubr : (roundHalfEven (x * 10000) : ℝ) ≤ 10000 := by exact_mod_cast hub
  have hlbr : (-10000 : ℝ) ≤ (roundHalfEven (x * 10000) : ℝ) := by exact_mod_cast hlb
  unfold round4
  constructor
  · rw [le_div_iff₀ (by norm_num : (0:ℝ) < 10000)]
    linarith
  · rw [div_le_iff₀ (by norm_num : (0:ℝ) < 10000)]
    linarith

/-- C5: for equal-length input series, the alignment score equals
0.5 corr + 0.5 (2 directional_match - 1) clamped to [-1, 1], so both the
computed and the stored (rounded) alignment score lie in [-1, 1]. -/
theorem C5_alignment_score_clamped (ss rs : List ℝ) (h : ss.length = rs.length) :
    alignment_score ss rs =
      max (-1) (min 1
        (0.5 * window_corr ss rs + 0.5 * (2 * directional_match ss rs - 1))) ∧
    -1 ≤ alignment_score ss rs ∧ alignment_score ss rs ≤ 1 ∧
    -1 ≤ (compute_window_metrics ss rs).alignment_score ∧
    (compute_window_metrics ss rs).alignment_score ≤ 1 := by
  have hbounds : -1 ≤ alignment_score ss rs ∧ alignment_score ss rs ≤ 1 := by
    unfold alignment_score
    exact ⟨le_max_left _ _, max_le (by norm_num) (min_le_left _ _)⟩
  have hr4 := round4_bounds hbounds.1 hbounds.2
  refine ⟨?_, hbounds.1, hbounds.2, hr4.1, hr4.2⟩
  unfold alignment_score alignment_score_raw
  ring_nf

/-- Closed instance of C5 at a concrete three-day window. -/
theorem C5_alignment_score_clamped_witness :
    ([1, -2, 3] : List ℝ).length = ([4, 5, -6] : List ℝ).length ∧
    -1 ≤ alignment_score [1, -2, 3] [4, 5, -6] ∧
    alignment_score [1, -2, 3] [4, 5, -6] ≤ 1 :=
  ⟨rfl, (C5_alignment_score_clamped [1, -2, 3] [4, 5, -6] rfl).2.1,
        (C5_alignment_score_clamped [1, -2, 3] [4, 5, -6] rfl).2.2.1⟩

/-! ## C6: the corr edge cases -/

theorem npStd_const {xs : List ℝ} {a : ℝ} (h : ∀ x ∈ xs, x = a) : npStd xs = 0 := by
  have hdev : sqDevSum xs = 0 := by
    unfold sqDevSum
    apply List.sum_eq_zero
    intro y hy
    obtain ⟨x, hx, hxy⟩ := List.mem_map.mp hy
    have hne : xs ≠ [] := by
      intro hn
      rw [hn] at hx
      simp at hx
    have hlen : (xs.length : ℝ) ≠ 0 := by
      have := List.length_pos.mpr hne
      positivity
    have hmean : listMean xs = a := by
      unfold listMean
      rw [List.sum_eq_card_nsmul xs a h, nsmul_eq_mul, mul_comm,
          mul_div_assoc, div_self hlen, mul_one]
    rw [← hxy, hmean, h x hx]
    simp
  unfold npStd
  rw [hdev, zero_div, Real.sqrt_zero]

/-- C6: the stored corr is 0.0 whenever either series' standard deviation
is below the 0.001 tolerance - in particular whenever either series is
constant - and equals the Pearson correlation coefficient otherwise. (The
isnan fallback of the source cannot fire in exact arithmetic: both
standard deviations being at least 0.001 makes the Pearson denominator
nonzero, so the correlation is defined.) -/
theorem C6_corr_edge_cases (ss rs : List ℝ) :
    ((npStd ss < 0.001 ∨ npStd rs < 0.001) → window_corr ss rs = 0) ∧
    (¬ (npStd ss < 0.001 ∨ npStd rs < 0.001) →
      window_corr ss rs = pearson ss rs) ∧
    (∀ a : ℝ, (∀ x ∈ ss, x = a) → window_corr ss rs = 0) ∧
    (∀ a : ℝ, (∀ x ∈ rs, x = a) → window_corr ss rs = 0) := by
  refine ⟨fun h => by rw [window_corr, if_pos h],
          fun h => by rw [window_corr, if_neg h], ?_, ?_⟩
  · intro a ha
    rw [window_corr, if_pos (Or.inl (by rw [npStd_const ha]; norm_num))]
  · intro a ha
    rw [window_corr, if_pos (Or.inr (by rw [npStd_const ha]; norm_num))]

/-- Closed instance of C6: a constant sentiment series gives corr 0. -/
theorem C6_corr_edge_cases_witness :
    window_corr [2, 2] [0, 5] = 0 :=
  (C6_corr_edge_cases [2, 2] [0, 5]).2.2.1 2
    (by
      intro x hx
      simp only [List.mem_cons, List.not_mem_nil, or_false] at hx
      rcases hx with h | h <;> exact h)

/-! ## C10: stored values are rounded, interpretation is not -/

/-- C10: the stored corr, directional_match and alignment_score are the
4-decimal roundings of the computed values (hence integer multiples of
1/10000), while the stored interpretation is derived from the unrounded
alignment score via the 0.3 thresholds. -/
theorem C10_stored_rounding (ss rs : List ℝ) :
    (compute_window_metrics ss rs).corr = round4 (window_corr ss rs) ∧
    (compute_window_metrics ss rs).directional_match
        = round4 (directional_match ss rs) ∧
    (compute_window_metrics ss rs).alignment_score
        = round4 (alignment_score ss rs) ∧
    (∃ k : ℤ, (compute_window_metrics ss rs).corr = (k : ℝ) / 10000) ∧
    (∃ k : ℤ, (compute_window_metrics ss rs).directional_match
        = (k : ℝ) / 10000) ∧
    (∃ k : ℤ, (compute_window_metrics ss rs).alignment_score
        = (k : ℝ) / 10000) ∧
    (compute_window_metrics ss rs).interpretation
        = interpretation_of (alignment_score ss rs) ∧
    interpretation_of (alignment_score ss rs)
        = (if alignment_score ss rs ≥ 0.3 then "Aligned"
           else if alignment_score ss rs ≤ -0.3 then "Misleading"
           else "Noisy") :=
  ⟨rfl, rfl, rfl, ⟨_, rfl⟩, ⟨_, rfl⟩, ⟨_, rfl⟩, rfl, rfl⟩

/-! ## C7: interpretation thresholds -/

/-- C7 (amended): the stored interpretation is Aligned iff the UNROUNDED
alignment score is at least 0.3, Misleading iff it is at most -0.3, and
Noisy otherwise; the thresholds are applied before rounding. -/
theorem C7_interpretation_unrounded_thresholds (ss rs : List ℝ) :
    ((compute_window_metrics ss rs).interpretation = "Aligned" ↔
      alignment_score ss rs ≥ 0.3) ∧
    ((compute_window_metrics ss rs).interpretation = "Misleading" ↔
      alignment_score ss rs ≤ -0.3) ∧
    ((compute_window_metrics ss rs).interpretation = "Noisy" ↔
      (¬ alignment_score ss rs ≥ 0.3 ∧ ¬ alignment_score ss rs ≤ -0.3)) := by
  have hcm : (compute_window_metrics ss rs).interpretation
      = interpretation_of (alignment_score ss rs) := rfl
  rw [hcm]
  unfold interpretation_of
  by_cases h1 : alignment_score ss rs ≥ 0.3
  · rw [if_pos h1]
    have h2 : ¬ alignment_score ss rs ≤ -0.3 := by
      rw [ge_iff_le] at h1
      intro hc
      have : (0.3 : ℝ) ≤ -0.3 := le_trans h1 hc
      norm_num at this
    exact ⟨⟨fun _ => h1, fun _ => rfl⟩,
           ⟨fun hs => absurd hs (by decide), fun hc => absurd hc h2⟩,
           ⟨fun hs => absurd hs (by decide), fun hp => absurd h1 hp.1⟩⟩
  · rw [if_neg h1]
    by_cases h2 : alignment_score ss rs ≤ -0.3
    · rw [if_pos h2]
      exact ⟨⟨fun hs => absurd hs (by decide), fun hc => absurd hc h1⟩,
             ⟨fun _ => h2, fun _ => rfl⟩,
             ⟨fun hs => absurd hs (by decide), fun hp => absurd h2 hp.2⟩⟩
    · rw [if_neg h2]
      exact ⟨⟨fun hs => absurd hs (by decide), fun hc => absurd hc h1⟩,
             ⟨fun hs => absurd hs (by decide), fun hc => absurd hc h2⟩,
             ⟨fun _ => ⟨h1, h2⟩, fun _ => rfl⟩⟩

/-- C7 counterexample: on the window sentiments = [3, 3, 1, 1] and
returns = [82871, 1697, 118303, 37129] (all four signs match, Pearson
corr = -17716/44285, from the Pythagorean triple 17716-40587-44285), the
unrounded alignment score is 26569/88570, strictly between 0.29995 and
0.3; the interpretation is computed from the unrounded score and is
Noisy, while the STORED alignment score rounds to exactly 0.3, so the
claimed equivalence (interpretation Aligned iff stored score at least
0.3) fails. -/
theorem C7_counterexample_rounded_threshold :
    ¬ (((compute_window_metrics [3, 3, 1, 1]
          [82871, 1697, 118303, 37129]).interpretation = "Aligned") ↔
        (compute_window_metrics [3, 3, 1, 1]
          [82871, 1697, 118303, 37129]).alignment_score ≥ 0.3) := by
  have hS_mean : listMean [3, 3, 1, 1] = 2 := by norm_num [listMean]
  have hR_mean : listMean [82871, 1697, 118303, 37129] = 60000 := by
    norm_num [listMean]
  have hS_dev : sqDevSum [3, 3, 1, 1] = 4 := by
    unfold sqDevSum
    rw [hS_mean]
    norm_num
  have hR_dev : sqDevSum [82871, 1697, 118303, 37129] = 7844644900 := by
    unfold sqDevSum
    rw [hR_mean]
    norm_num
  have hS_len : ((([3, 3, 1, 1] : List ℝ)).length : ℝ) = 4 := by norm_num
  have hR_len : ((([82871, 1697, 118303, 37129] : List ℝ)).length : ℝ) = 4 := by
    norm_num
  have hS_std : npStd [3, 3, 1, 1] = 1 := by
    unfold npStd
    rw [hS_dev, hS_len, show (4 : ℝ) / 4 = 1 by norm_num, Real.sqrt_one]
  have hR_std : npStd [82871, 1697, 118303, 37129] = 44285 := by
    unfold npStd
    rw [hR_dev, hR_len, show (7844644900 : ℝ) / 4 = 44285 ^ 2 by norm_num,
        Real.sqrt_sq (by norm_num : (0 : ℝ) ≤ 44285)]
  have hcov : covSum [3, 3, 1, 1] [82871, 1697, 118303, 37129] = -70864 := by
    unfold covSum
    rw [hS_mean, hR_mean]
    norm_num [List.zip_cons_cons]
  have hpearson : pearson [3, 3, 1, 1] [82871, 1697, 118303, 37129]
      = -(17716 / 44285) := by
    unfold pearson
    rw [hcov, hS_dev, hR_dev, show (4 : ℝ) = 2 ^ 2 by norm_num,
        Real.sqrt_sq (by norm_num : (0 : ℝ) ≤ 2),
        show (7844644900 : ℝ) = 88570 ^ 2 by norm_num,
        Real.sqrt_sq (by norm_num : (0 : ℝ) ≤ 88570)]
    norm_num
  have hcond : ¬ (npStd [3, 3, 1, 1] < 0.001 ∨
      npStd [82871, 1697, 118303, 37129] < 0.001) := by
    rw [hS_std, hR_std]
    norm_num
  have hcorr : window_corr [3, 3, 1, 1] [82871, 1697, 118303, 37129]
      = -(17716 / 44285) := by
    unfold window_corr
    rw [if_neg hcond, hpearson]
  have hsign_pos : ∀ x : ℝ, 0 < x → npSign x = 1 := by
    intro x hx
    unfold npSign
    rw [if_pos hx]
  have hzip : (([3, 3, 1, 1] : List ℝ)).zip
      ([82871, 1697, 118303, 37129] : List ℝ)
      = [(3, 82871), (3, 1697), (1, 118303), (1, 37129)] := rfl
  have hmatch : matchCount [3, 3, 1, 1] [82871, 1697, 118303, 37129] = 4 := by
    unfold matchCount
    rw [hzip]
    have hfil : ([((3 : ℝ), (82871 : ℝ)), (3, 1697), (1, 118303),
        (1, 37129)]).filter (fun p => npSign p.1 = npSign p.2)
        = [(3, 82871), (3, 1697), (1, 118303), (1, 37129)] := by
      apply List.filter_eq_self.mpr
      intro p hp
      simp only [List.mem_cons, List.not_mem_nil, or_false] at hp
      rcases hp with h | h | h | h <;> subst h <;>
        exact decide_eq_true (by
          rw [hsign_pos _ (by norm_num), hsign_pos _ (by norm_num)])
    rw [hfil]
    rfl
  have hdm : directional_match [3, 3, 1, 1] [82871, 1697, 118303, 37129]
      = 1 := by
    unfold directional_match
    rw [hmatch, hS_len]
    norm_num
  have hraw : alignment_score_raw [3, 3, 1, 1] [82871, 1697, 118303, 37129]
      = 26569 / 88570 := by
    unfold alignment_score_raw
    rw [hcorr, hdm]
    norm_num
  have halign : alignment_score [3, 3, 1, 1] [82871, 1697, 118303, 37129]
      = 26569 / 88570 := by
    unfold alignment_score
    rw [hraw, min_eq_right (by norm_num : (26569 : ℝ) / 88570 ≤ 1),
        max_eq_right (by norm_num : (-1 : ℝ) ≤ 26569 / 88570)]
  have hint : (compute_window_metrics [3, 3, 1, 1]
      [82871, 1697, 118303, 37129]).interpretation = "Noisy" := by
    show interpretation_of
      (alignment_score [3, 3, 1, 1] [82871, 1697, 118303, 37129]) = "Noisy"
    rw [halign]
    unfold interpretation_of
    rw [if_neg (by norm_num), if_neg (by norm_num)]
  have hstored : (compute_window_metrics [3, 3, 1, 1]
      [82871, 1697, 118303, 37129]).alignment_score = 0.3 := by
    show round4
      (alignment_score [3, 3, 1, 1] [82871, 1697, 118303, 37129]) = 0.3
    rw [halign]
    unfold round4
    rw [show (26569 / 88570 : ℝ) * 10000 = 26569000 / 8857 by norm_num]
    have hfl : ⌊(26569000 / 8857 : ℝ)⌋ = 2999 := by
      rw [Int.floor_eq_iff]
      constructor
      · norm_num
      · norm_num
    have hfr : Int.fract (26569000 / 8857 : ℝ) = 6857 / 8857 := by
      unfold Int.fract
      rw [hfl]
      norm_num
    have hcl : ⌈(26569000 / 8857 : ℝ)⌉ = 3000 := by
      rw [Int.ceil_eq_iff]
      constructor
      · norm_num
      · norm_num
    unfold roundHalfEven
    simp only [hfr]
    rw [if_neg (by norm_num : ¬ (6857 / 8857 : ℝ) < 1 / 2),
        if_pos (by norm_num : (1 : ℝ) / 2 < 6857 / 8857), hcl]
    norm_num
  intro hiff
  have h3 : (compute_window_metrics [3, 3, 1, 1]
      [82871, 1697, 118303, 37129]).alignment_score ≥ 0.3 := by
    rw [hstored]
  have hA := hiff.mpr h3
  rw [hint] at hA
  exact absurd hA (by decide)
